import Mathlib

/-!
Verification development for the foot-pressure analysis core
(`foot_pressure_web/backend/analyzer_engine.py`, class `FootPressureAnalyzer`).

The Python/numpy code is shallowly embedded as follows:

* a 2-D numpy array is a `Grid`: an explicit shape (`rows`, `cols`) together
  with a total value function `val : ℕ → ℕ → ℤ` (array cells are machine
  integers, modelled as `ℤ`; cells outside the shape are irrelevant junk
  unless a definition explicitly zeroes them, mirroring the way numpy
  operations only ever touch in-bounds cells);
* floating-point arithmetic (centroids, ratios, percentages) is modelled by
  exact rational arithmetic over `ℚ`;
* configuration values are the repository defaults from `config.py`:
  `noise_threshold = 5`, `hindfoot_ratio = 0.3`, `midfoot_ratio = 0.4`,
  `FOOT_TYPE_CRITERIA = \x7bhigh_arch: 0.21, normal: 0.26\x7d`;
* `scipy.ndimage.label` uses its default 4-connectivity structuring element;
  `binary_opening` uses the explicit 3×3 all-ones structuring element and
  scipy's default zero border value.
-/

/-- A 2-D numpy integer array: shape plus cell values. -/
structure Grid where
  rows : ℕ
  cols : ℕ
  val : ℕ → ℕ → ℤ

/-- `np.array([])`: the empty array returned by `_separate_feet` on an
all-zero input. -/
def Grid.empty : Grid := ⟨0, 0, fun _ _ => 0⟩

/-- The in-bounds index set of a grid. -/
def Grid.cells (g : Grid) : Finset (ℕ × ℕ) :=
  Finset.range g.rows ×ˢ Finset.range g.cols

/-- `np.sum(array)`: total of all in-bounds cells. -/
def totalSum (g : Grid) : ℤ := ∑ p in g.cells, g.val p.1 p.2

/-- The in-bounds cells with strictly positive value (`array > 0`). -/
def Grid.support (g : Grid) : Finset (ℕ × ℕ) :=
  g.cells.filter fun p => 0 < g.val p.1 p.2

/-- `np.max(array)` over the in-bounds cells (0 for an empty array; the
engine only ever takes the max of a non-empty array). -/
def maxVal (g : Grid) : ℤ := (g.cells.image fun p => g.val p.1 p.2).max.getD 0

/-- `array[r, :].sum()`: the sum of one row. -/
def rowSum (g : Grid) (r : ℕ) : ℤ := ∑ c in Finset.range g.cols, g.val r c

/-- `np.sum(array[a:b, :])`: the sum of a horizontal slice of rows. -/
def sliceSum (g : Grid) (a b : ℕ) : ℤ := ∑ r in Finset.Ico a b, rowSum g r

/-! ### `_filter_noise`

`threshold = ANALYSIS_PARAMS.get('noise_threshold', 5)`;
`cleaned = np.where(arr > threshold, arr, 0)`;
`cleaned = binary_opening(cleaned > 0, np.ones((3,3))).astype(int) * cleaned`.
-/

/-- `np.where(arr > 5, arr, 0)`: the value threshold with the default
`noise_threshold = 5`. -/
def threshVal (g : Grid) (r c : ℕ) : ℤ := if 5 < g.val r c then g.val r c else 0

/-- The nine offsets of the 3×3 all-ones structuring element
`np.ones((3, 3))`. -/
def offsets : List (ℤ × ℤ) :=
  [(-1,-1),(-1,0),(-1,1),(0,-1),(0,0),(0,1),(1,-1),(1,0),(1,1)]

/-- Binary erosion by the 3×3 structuring element on the plane ℤ²
(scipy's zero border value makes out-of-bounds pixels background, which is
exactly what extending the mask by `false` off the grid gives). -/
def erodeM (m : ℤ → ℤ → Bool) (r c : ℤ) : Bool :=
  offsets.all fun d => m (r + d.1) (c + d.2)

/-- Binary dilation by the (symmetric) 3×3 structuring element on ℤ². -/
def dilateM (m : ℤ → ℤ → Bool) (r c : ℤ) : Bool :=
  offsets.any fun d => m (r + d.1) (c + d.2)

/-- `binary_opening`: erosion followed by dilation. -/
def openM (m : ℤ → ℤ → Bool) (r c : ℤ) : Bool := dilateM (erodeM m) r c

/-- The binary mask `cleaned > 0` of the thresholded array, extended to ℤ²
by `false` outside the grid. -/
def binMask (g : Grid) (r c : ℤ) : Bool :=
  decide (0 ≤ r ∧ r < g.rows ∧ 0 ≤ c ∧ c < g.cols) &&
    decide (0 < threshVal g r.toNat c.toNat)

/-- `_filter_noise`: no-op when the maximum is zero, otherwise threshold at
the default 5 and keep only cells surviving the 3×3 binary opening. -/
def filterNoise (g : Grid) : Grid :=
  if maxVal g = 0 then g
  else
    { rows := g.rows, cols := g.cols,
      val := fun r c => if openM (binMask g) r c then threshVal g r c else 0 }

/-- Two grids agree as numpy arrays: same shape and the same values at every
in-bounds cell. -/
def GridEqOn (a b : Grid) : Prop :=
  a.rows = b.rows ∧ a.cols = b.cols ∧
    ∀ r < b.rows, ∀ c < b.cols, a.val r c = b.val r c

/-! ### `_separate_feet` -/

/-- 4-adjacency of grid cells: the default structuring element of
`scipy.ndimage.label`. -/
def adj (p q : ℕ × ℕ) : Prop :=
  (p.1 = q.1 ∧ (p.2 + 1 = q.2 ∨ q.2 + 1 = p.2)) ∨
    (p.2 = q.2 ∧ (p.1 + 1 = q.1 ∨ q.1 + 1 = p.1))

instance : DecidablePred (fun pq : (ℕ × ℕ) × (ℕ × ℕ) => adj pq.1 pq.2) := by
  intro pq; unfold adj; infer_instance

instance (p q : ℕ × ℕ) : Decidable (adj p q) := by
  unfold adj; infer_instance

/-- One step of connected-component growth: add every positive cell adjacent
to the current set. -/
def compStep (g : Grid) (s : Finset (ℕ × ℕ)) : Finset (ℕ × ℕ) :=
  s ∪ g.support.filter fun q => ∃ p ∈ s, adj p q

/-- The connected component (in the sense of `scipy.ndimage.label` on the
mask `array > 0`) containing the cell `p`: grow from `\x7bp\x7d` for
`rows * cols` steps, which saturates the reachable set. -/
def component (g : Grid) (p : ℕ × ℕ) : Finset (ℕ × ℕ) :=
  (compStep g)^[g.rows * g.cols] {p}

/-- `num_features` as returned by `scipy.ndimage.label`: the number of
distinct connected components of the positive mask. -/
def numFeatures (g : Grid) : ℕ := (g.support.image (component g)).card

/-- The column coordinate of `scipy.ndimage.center_of_mass` of `array`
restricted to a set of cells (a labelled component). -/
def comCol (g : Grid) (s : Finset (ℕ × ℕ)) : ℚ :=
  (∑ p in s, (p.2 : ℚ) * (g.val p.1 p.2 : ℚ)) / ∑ p in s, (g.val p.1 p.2 : ℚ)

/-- The numerator of `comCol` before casting: `∑ column·value` over a cell
set, as an integer. -/
def comNum (g : Grid) (s : Finset (ℕ × ℕ)) : ℤ := ∑ p in s, (p.2 : ℤ) * g.val p.1 p.2

/-- The denominator of `comCol` before casting: the total value of a cell
set, as an integer. -/
def comDen (g : Grid) (s : Finset (ℕ × ℕ)) : ℤ := ∑ p in s, g.val p.1 p.2

/-- `comCol < mid` decided by integer arithmetic (the ℚ comparison itself is
not kernel-reducible). -/
instance decComColLtNat (g : Grid) (s : Finset (ℕ × ℕ)) (mid : ℕ) :
    Decidable (comCol g s < (mid : ℚ)) :=
  decidable_of_iff
    (if 0 < comDen g s then comNum g s < (mid : ℤ) * comDen g s
     else if comDen g s = 0 then 0 < mid
     else (mid : ℤ) * comDen g s < comNum g s) <| by
  have hcol : comCol g s = (comNum g s : ℚ) / (comDen g s : ℚ) := by
    unfold comCol comNum comDen
    push_cast
    rfl
  rw [hcol]
  rcases lt_trichotomy (comDen g s) 0 with hb | hb | hb
  · rw [if_neg (by omega), if_neg (by omega),
      div_lt_iff_of_neg (by exact_mod_cast hb : ((comDen g s : ℤ) : ℚ) < 0)]
    constructor <;> intro h <;> exact_mod_cast h
  · rw [if_neg (by omega), if_pos hb, hb]
    push_cast
    rw [div_zero]
    exact_mod_cast Iff.rfl
  · rw [if_pos hb, div_lt_iff₀ (by exact_mod_cast hb : (0:ℚ) < (comDen g s : ℚ))]
    constructor <;> intro h <;> exact_mod_cast h

/-- `find_objects(labeled)[0]` column slice start: the least column index of
a positive cell (`0` never occurs in context: only used when the support is
non-empty). -/
def objMinCol (g : Grid) : ℕ := (g.support.image Prod.snd).min.getD 0

/-- `find_objects(labeled)[0]` column slice stop: one past the greatest
column index of a positive cell. -/
def objMaxCol (g : Grid) : ℕ := ((g.support.image Prod.snd).max.getD 0) + 1

/-- `array * mask` for a boolean mask that is only ever true on positive
in-bounds cells: keeps the value where the mask holds, zero elsewhere
(including outside the shape, as a numpy product array has no cells there). -/
def maskGrid (g : Grid) (m : ℕ × ℕ → Prop) [DecidablePred m] : Grid :=
  { rows := g.rows, cols := g.cols,
    val := fun r c => if (r, c) ∈ g.support ∧ m (r, c) then g.val r c else 0 }

/-- The forced-split left mask: cells of the unique component strictly left
of the midline (`left_mask[:, :mid] = labeled[:, :mid] == 1`; with exactly
one feature, `labeled == 1` is exactly the positive mask). -/
def forcedLeft (g : Grid) (mid : ℕ) : Grid := maskGrid g fun p => p.2 < mid

/-- The forced-split right mask: cells of the unique component at or right
of the midline. -/
def forcedRight (g : Grid) (mid : ℕ) : Grid := maskGrid g fun p => ¬ p.2 < mid

/-- Centroid-assignment left mask: a positive cell is left iff the
center-of-mass column of its component is `< mid` (`com[1] < mid_col`). -/
def centroidLeft (g : Grid) (mid : ℕ) : Grid :=
  maskGrid g fun p => comCol g (component g p) < (mid : ℚ)

/-- Centroid-assignment right mask: the `else` branch of the loop. -/
def centroidRight (g : Grid) (mid : ℕ) : Grid :=
  maskGrid g fun p => ¬ comCol g (component g p) < (mid : ℚ)

/-- The straddle-and-width test of the forced-split branch:
`obj_min_col < mid_col < obj_max_col and (obj_max_col - obj_min_col) > cols / 3`
(the division is Python float division, modelled exactly over ℚ). -/
def forcedCondition (g : Grid) (mid : ℕ) : Prop :=
  objMinCol g < mid ∧ mid < objMaxCol g ∧
    ((objMaxCol g - objMinCol g : ℕ) : ℚ) > (g.cols : ℚ) / 3

/-- The straddle-and-width test decided by integer arithmetic. -/
instance decForcedCondition (g : Grid) (mid : ℕ) :
    Decidable (forcedCondition g mid) :=
  decidable_of_iff
    (objMinCol g < mid ∧ mid < objMaxCol g ∧
      g.cols < (objMaxCol g - objMinCol g) * 3) <| by
  unfold forcedCondition
  refine and_congr Iff.rfl (and_congr Iff.rfl ?_)
  rw [gt_iff_lt, div_lt_iff₀ (by norm_num : (0:ℚ) < 3)]
  constructor <;> intro h <;> exact_mod_cast h

/-- `_separate_feet`: empty arrays on an all-zero input; otherwise the
forced midline split of a single wide straddling component when both halves
carry pressure, else whole-component assignment by centroid column. -/
def separateFeet (g : Grid) : Grid × Grid :=
  if totalSum g = 0 then (Grid.empty, Grid.empty)
  else if numFeatures g = 1 ∧ forcedCondition g (g.cols / 2) ∧
      0 < totalSum (forcedLeft g (g.cols / 2)) ∧
      0 < totalSum (forcedRight g (g.cols / 2)) then
    (forcedLeft g (g.cols / 2), forcedRight g (g.cols / 2))
  else
    (centroidLeft g (g.cols / 2), centroidRight g (g.cols / 2))

/-! ### Zones and distribution (`_get_foot_zone_indices`,
`_calculate_pressure_distribution`) -/

/-- A half-open row range `[start, stop)` as stored in the zone dict. -/
structure ZoneRange where
  start : ℕ
  stop : ℕ
deriving DecidableEq, Repr

/-- The zone dictionary `\x7bhind, mid, fore\x7d`. -/
structure Zones where
  hind : ZoneRange
  mid : ZoneRange
  fore : ZoneRange
deriving DecidableEq, Repr

/-- `_get_foot_zone_indices` with the default ratios
`hindfoot_ratio = 0.3`, `midfoot_ratio = 0.4`: `int(height * 0.3)` is
`3 * height / 10` (ℕ division), and likewise for the mid ratio. -/
def getFootZoneIndices (bbox : Option (ℕ × ℕ)) : Option Zones :=
  match bbox with
  | none => none
  | some (minR, maxR) =>
    if maxR - minR + 1 < 3 then none
    else
      some ⟨⟨minR, minR + 3 * (maxR - minR + 1) / 10⟩,
            ⟨minR + 3 * (maxR - minR + 1) / 10,
             minR + 3 * (maxR - minR + 1) / 10 + 4 * (maxR - minR + 1) / 10⟩,
            ⟨minR + 3 * (maxR - minR + 1) / 10 + 4 * (maxR - minR + 1) / 10,
             maxR + 1⟩⟩

/-- The rows of a foot grid containing any positive cell
(`np.where(np.any(foot_array > 0, axis=1))[0]`). -/
def pressureRows (g : Grid) : Finset ℕ :=
  (Finset.range g.rows).filter fun r => ∃ c ∈ Finset.range g.cols, 0 < g.val r c

/-- `get_virtual_footprint`: `None` when the foot has no pressure, otherwise
the inclusive (min row, max row) vertical extent of its support. -/
def virtualFootprint (g : Grid) : Option (ℕ × ℕ) :=
  if totalSum g = 0 then none
  else if h : (pressureRows g).Nonempty then
    some ((pressureRows g).min' h, (pressureRows g).max' h)
  else none

/-- The combined bounding box over whichever feet have a footprint
(`min` of the mins, `max` of the maxes). -/
def combinedBbox (left right : Grid) : Option (ℕ × ℕ) :=
  match virtualFootprint left, virtualFootprint right with
  | none, none => none
  | some b, none => some b
  | none, some b => some b
  | some b₁, some b₂ => some (min b₁.1 b₂.1, max b₁.2 b₂.2)

/-- One stored distribution percentage:
`np.sum(foot[start:stop, :]) / foot_total * 100`. -/
def pct (foot : Grid) (zr : ZoneRange) : ℚ :=
  ((sliceSum foot zr.start zr.stop : ℚ) / (totalSum foot : ℚ)) * 100

/-- The three entries one side contributes to `self.distribution`
(keys `prefix + zone_name[0].upper()`), or none when the side has zero
total pressure. -/
def sideEntries (sideKey : String) (foot : Grid) (z : Zones) :
    List (String × ℚ) :=
  if totalSum foot = 0 then []
  else
    [(sideKey ++ "H", pct foot z.hind),
     (sideKey ++ "M", pct foot z.mid),
     (sideKey ++ "F", pct foot z.fore)]

/-- `_calculate_pressure_distribution`: the final contents of
`self.distribution` for a given cleaned grid. -/
def distEntries (cleaned : Grid) : List (String × ℚ) :=
  match combinedBbox (separateFeet cleaned).1 (separateFeet cleaned).2 with
  | none => []
  | some bbox =>
    if totalSum (separateFeet cleaned).1 + totalSum (separateFeet cleaned).2 = 0
    then []
    else
      match getFootZoneIndices (some bbox) with
      | none => []
      | some z =>
        sideEntries "L" (separateFeet cleaned).1 z ++
          sideEntries "R" (separateFeet cleaned).2 z

/-! ### `_classify_arch`, `_calculate_arch_score`, `_analyze_foot_type`,
`_calculate_cop` -/

/-- `_classify_arch` with the default criteria
`high_arch = 0.21`, `normal = 0.26`. -/
def classifyArch (ratio : ℚ) : String :=
  if ratio ≤ 21 / 100 then "요족 (High Arch)"
  else if ratio ≤ 26 / 100 then "정상 (Normal)"
  else "평발 (Flat Foot)"

/-- Python's `round(x, 1)`, modelled with Mathlib's `round` (the two differ
only on exact ties, where Python rounds half to even). -/
def roundTo1 (x : ℚ) : ℚ := (round (10 * x) : ℤ) / 10

/-- `_calculate_arch_score` with the default criteria: `ideal = 0.235`,
`width = 0.025`; the `width == 0` degenerate branch is kept from the source
even though the defaults make it dead. -/
def archScore (ai : ℚ) : ℚ :=
  let ideal : ℚ := (21 / 100 + 26 / 100) / 2
  let width : ℚ := (26 / 100 - 21 / 100) / 2
  if width = 0 then (if ai = ideal then 100 else 0)
  else roundTo1 (max 0 (100 - |ai - ideal| / width * 50))

/-- One value of the `self.foot_types` dict. -/
structure FootTypeEntry where
  type : String
  value : ℚ
  score : ℚ
deriving DecidableEq, Repr

/-- The entry `_analyze_foot_type` stores for one foot, given the zone
dict. -/
def footEntry (foot : Grid) (z : Zones) : FootTypeEntry :=
  if totalSum foot = 0 then ⟨"데이터 없음", 0, 0⟩
  else
    let ai := (sliceSum foot z.mid.start z.mid.stop : ℚ) / (totalSum foot : ℚ)
    ⟨classifyArch ai, ai, archScore ai⟩

/-- `_analyze_foot_type`: the final contents of `self.foot_types` — empty
when no zones are defined, otherwise one entry per side. -/
def analyzeFootType (left right : Grid) (zones : Option Zones) :
    List (String × FootTypeEntry) :=
  match zones with
  | none => []
  | some z => [("왼쪽", footEntry left z), ("오른쪽", footEntry right z)]

/-- `_calculate_cop`: `None` on zero total pressure, else the
intensity-weighted centroid `(row, col)` of the cleaned grid. -/
def calcCop (g : Grid) : Option (ℚ × ℚ) :=
  if totalSum g = 0 then none
  else
    some ((∑ p in g.cells, (p.1 : ℚ) * (g.val p.1 p.2 : ℚ)) / (totalSum g : ℚ),
          (∑ p in g.cells, (p.2 : ℚ) * (g.val p.1 p.2 : ℚ)) / (totalSum g : ℚ))

/-- The analysis fields of `FootPressureAnalyzer` observable after a run. -/
structure AnalysisState where
  cop : Option (ℚ × ℚ)
  distribution : List (String × ℚ)
  footTypes : List (String × FootTypeEntry)
  finalBbox : Option (ℕ × ℕ)
deriving Repr

/-- The pipeline stages of `run_analysis` after ingestion, applied to the
already-built pressure grid. -/
def analyzeGrid (g : Grid) : AnalysisState :=
  { cop := calcCop (filterNoise g),
    distribution := distEntries (filterNoise g),
    footTypes := analyzeFootType (separateFeet (filterNoise g)).1
      (separateFeet (filterNoise g)).2
      (getFootZoneIndices (combinedBbox (separateFeet (filterNoise g)).1
        (separateFeet (filterNoise g)).2)),
    finalBbox := combinedBbox (separateFeet (filterNoise g)).1
      (separateFeet (filterNoise g)).2 }

/-! ### Ingestion (`_process_input_data`, `run_analysis`)

The uploaded JSON is modelled as `Option (List (String × String))`: the
value of `json_data.get('RawPressureByRows')` (`none` when the field is
missing), as an association list of row-key / cell-string pairs.  Python's
`int()` on a cell or key fragment is modelled by `String.toInt?`.
-/

/-- Sequence a list of optional values; `none` as soon as one element is
`none` (a `ValueError` raised inside a list comprehension). -/
def seqOption {α : Type} : List (Option α) → Option (List α)
  | [] => some []
  | none :: _ => none
  | some a :: rest => (seqOption rest).map (a :: ·)

/-- Python `s.split(', ')` at character level: cut at every
(non-overlapping, left-to-right) occurrence of the two-character
separator. -/
def splitCS : List Char → List (List Char)
  | [] => [[]]
  | ',' :: ' ' :: rest => [] :: splitCS rest
  | c :: rest =>
    match splitCS rest with
    | [] => [[c]]
    | h :: t => (c :: h) :: t

/-- Python `k.split('_')` at character level. -/
def splitU : List Char → List (List Char)
  | [] => [[]]
  | '_' :: rest => [] :: splitU rest
  | c :: rest =>
    match splitU rest with
    | [] => [[c]]
    | h :: t => (c :: h) :: t

/-- The numeric value of a decimal digit character. -/
def digitVal (c : Char) : Option ℕ :=
  if '0' ≤ c ∧ c ≤ '9' then some (c.toNat - 48) else none

/-- The ASCII characters Python's `int()` strips around a numeral: space
and `\t`–`\r`. -/
def isPySpace (c : Char) : Bool :=
  c = ' ' ∨ ('\t' ≤ c ∧ c ≤ '\x0d')

/-- Strip leading and trailing whitespace, as `int()` does before parsing. -/
def stripPySpaces (l : List Char) : List Char :=
  ((l.dropWhile isPySpace).reverse.dropWhile isPySpace).reverse

/-- After the leading digit: further digits, each optionally preceded by a
single underscore (Python's digit grouping: an underscore must sit between
two digits). -/
def digitsAux : ℕ → List Char → Option ℕ
  | acc, [] => some acc
  | acc, '_' :: rest =>
    match rest with
    | [] => none
    | c :: rest' =>
      match digitVal c with
      | some d => digitsAux (10 * acc + d) rest'
      | none => none
  | acc, c :: rest =>
    match digitVal c with
    | some d => digitsAux (10 * acc + d) rest
    | none => none

/-- A numeral body: a leading digit followed by digits with optional single
underscores between them (`1_000` parses, `_1`, `1_` and `1__0` do not). -/
def parseDigits : List Char → Option ℕ
  | [] => none
  | c :: rest =>
    match digitVal c with
    | some d => digitsAux d rest
    | none => none

/-- Python `int(s)` on a string: optional surrounding whitespace, an
optional sign, then decimal digits with single underscores allowed between
digits.  (Non-ASCII Unicode digits and whitespace, which `int()` also
accepts, are outside the sensor data model and treated as non-numeric.) -/
def parseIntChars (l : List Char) : Option ℤ :=
  match stripPySpaces l with
  | '-' :: rest => (parseDigits rest).map fun n => -(n : ℤ)
  | '+' :: rest => (parseDigits rest).map fun n => (n : ℤ)
  | l' => (parseDigits l').map fun n => (n : ℤ)

/-- `list(map(int, s.split(', ')))` for one row string. -/
def parseRow (s : String) : Option (List ℤ) :=
  seqOption ((splitCS s.data).map parseIntChars)

/-- `int(key.split('_')[1])` when it is defined: `none` when the key has no
second fragment (`IndexError`, not caught by the ingestion handler) or the
fragment is not an integer (`ValueError`, caught). -/
def keyIdx (k : String) : Option ℤ :=
  match (splitU k.data)[1]? with
  | none => none
  | some frag => parseIntChars frag

/-- Insert one row into a list sorted by parsed key index. -/
def insertByKey (kv : String × String) :
    List (String × String) → List (String × String)
  | [] => [kv]
  | x :: xs =>
    if (keyIdx kv.1).getD 0 ≤ (keyIdx x.1).getD 0 then kv :: x :: xs
    else x :: insertByKey kv xs

/-- `sorted(pressure_rows.keys(), key=lambda x: int(x.split('_')[1]))`,
paired with the dict lookup of each key. -/
def sortRows (rows : List (String × String)) : List (String × String) :=
  rows.foldr insertByKey []

/-- `np.array(matrix)` succeeds only on a rectangular nested list; a ragged
one raises `ValueError`. -/
def rectangular (m : List (List ℤ)) : Bool :=
  m.all fun row => row.length = (m.headD []).length

/-- `_process_input_data`: the resulting `self.pressure_array` as a nested
list, or `none` for the one uncaught failure (`IndexError` while sorting
keys).  A falsy row mapping, a non-integer key fragment, a non-integer cell
and a ragged matrix all yield the caught-exception result
`self.pressure_array = np.array([])`, i.e. `some []`. -/
def processInputData (input : Option (List (String × String))) :
    Option (List (List ℤ)) :=
  match input with
  | none => some []
  | some [] => some []
  | some rows =>
    if rows.any fun kv => ((splitU kv.1.data)[1]?).isNone then none
    else if rows.any fun kv => (keyIdx kv.1).isNone then some []
    else
      match seqOption ((sortRows rows).map fun kv => parseRow kv.2) with
      | none => some []
      | some m => if rectangular m then some m else some []

/-- `self.pressure_array.size`: the number of scalar elements. -/
def gridSize (m : List (List ℤ)) : ℕ := (m.map List.length).sum

/-- The `Grid` corresponding to a non-empty rectangular parsed matrix. -/
def gridOfMatrix (m : List (List ℤ)) : Grid :=
  ⟨m.length, (m.headD []).length, fun r c => (m.getD r []).getD c 0⟩

/-- The observable outcome of `run_analysis`: its boolean return value,
`self.error_message`, and the analysis fields. -/
structure RunResult where
  success : Bool
  errorMessage : Option String
  state : AnalysisState
deriving Repr

/-- The analysis fields as initialised by `__init__`. -/
def initState : AnalysisState := ⟨none, [], [], none⟩

/-- `run_analysis`: ingest, refuse an empty grid with the "no data" message,
otherwise run the pipeline stages (which are total, so the `except` branch
of a mid-pipeline exception is unreachable for a well-formed grid). -/
def runAnalysis (input : Option (List (String × String))) : RunResult :=
  match processInputData input with
  | none =>
    ⟨false, some "분석 실행 중 오류 발생: IndexError", initState⟩
  | some m =>
    if gridSize m = 0 then
      ⟨false, some "데이터가 없거나 형식이 잘못되었습니다.", initState⟩
    else
      ⟨true, none, analyzeGrid (gridOfMatrix m)⟩

/-! ## Supporting lemmas -/

lemma mem_cells {g : Grid} {p : ℕ × ℕ} :
    p ∈ g.cells ↔ p.1 < g.rows ∧ p.2 < g.cols := by
  cases p
  simp [Grid.cells]

lemma mem_support {g : Grid} {p : ℕ × ℕ} :
    p ∈ g.support ↔ (p.1 < g.rows ∧ p.2 < g.cols) ∧ 0 < g.val p.1 p.2 := by
  simp [Grid.support, mem_cells]

lemma maskGrid_val (g : Grid) (m : ℕ × ℕ → Prop) [DecidablePred m] (r c : ℕ) :
    (maskGrid g m).val r c =
      if (r, c) ∈ g.support ∧ m (r, c) then g.val r c else 0 := rfl

lemma maskGrid_val_nonneg (g : Grid) (m : ℕ × ℕ → Prop) [DecidablePred m]
    (r c : ℕ) : 0 ≤ (maskGrid g m).val r c := by
  rw [maskGrid_val]
  split_ifs with h
  · exact le_of_lt (mem_support.mp h.1).2
  · exact le_refl 0

lemma maskGrid_rows (g : Grid) (m : ℕ × ℕ → Prop) [DecidablePred m] :
    (maskGrid g m).rows = g.rows := rfl

lemma maskGrid_cols (g : Grid) (m : ℕ × ℕ → Prop) [DecidablePred m] :
    (maskGrid g m).cols = g.cols := rfl

lemma maskGrid_compl_val_add (g : Grid) (m : ℕ × ℕ → Prop) [DecidablePred m]
    [DecidablePred fun p => ¬ m p] {r c : ℕ} (hnn : 0 ≤ g.val r c)
    (hr : r < g.rows) (hc : c < g.cols) :
    (maskGrid g m).val r c + (maskGrid g fun p => ¬ m p).val r c = g.val r c := by
  rw [maskGrid_val, maskGrid_val]
  by_cases hs : (r, c) ∈ g.support
  · by_cases hm : m (r, c)
    · rw [if_pos ⟨hs, hm⟩, if_neg (by tauto)]
      ring
    · rw [if_neg (by tauto), if_pos ⟨hs, hm⟩]
      ring
  · rw [if_neg (by tauto), if_neg (by tauto)]
    have : ¬ 0 < g.val r c := fun hpos => hs (mem_support.mpr ⟨⟨hr, hc⟩, hpos⟩)
    omega

lemma maskGrid_compl_not_both (g : Grid) (m : ℕ × ℕ → Prop) [DecidablePred m]
    [DecidablePred fun p => ¬ m p] (r c : ℕ) :
    ¬ (0 < (maskGrid g m).val r c ∧ 0 < (maskGrid g fun p => ¬ m p).val r c) := by
  rw [maskGrid_val, maskGrid_val]
  rintro ⟨h1, h2⟩
  by_cases hm : m (r, c)
  · rw [if_neg (by tauto)] at h2
    omega
  · rw [if_neg (by tauto)] at h1
    omega

lemma separateFeet_branches (g : Grid) (h : totalSum g ≠ 0) :
    separateFeet g = (forcedLeft g (g.cols / 2), forcedRight g (g.cols / 2)) ∨
      separateFeet g = (centroidLeft g (g.cols / 2), centroidRight g (g.cols / 2)) := by
  unfold separateFeet
  rw [if_neg h]
  split_ifs
  · left; rfl
  · right; rfl

lemma totalSum_maskGrid_nonneg (g : Grid) (m : ℕ × ℕ → Prop) [DecidablePred m] :
    0 ≤ totalSum (maskGrid g m) :=
  Finset.sum_nonneg fun p _ => maskGrid_val_nonneg g m p.1 p.2

lemma totalSum_maskGrid_pos (g : Grid) (m : ℕ × ℕ → Prop) [DecidablePred m]
    (hp : ∃ p ∈ g.support, m p) : 0 < totalSum (maskGrid g m) := by
  obtain ⟨p, hps, hpm⟩ := hp
  refine Finset.sum_pos' (fun q _ => maskGrid_val_nonneg g m q.1 q.2) ⟨p, ?_, ?_⟩
  · have := mem_support.mp hps
    exact mem_cells.mpr ⟨this.1.1, this.1.2⟩
  · have hv := (mem_support.mp hps).2
    have : (p.1, p.2) = p := rfl
    rw [maskGrid_val, this, if_pos ⟨hps, hpm⟩]
    exact hv

lemma totalSum_pos_of_support (g : Grid) (hnn : ∀ r c, 0 ≤ g.val r c)
    (hp : g.support.Nonempty) : 0 < totalSum g := by
  obtain ⟨p, hps⟩ := hp
  refine Finset.sum_pos' (fun q _ => hnn q.1 q.2) ⟨p, ?_, (mem_support.mp hps).2⟩
  have := mem_support.mp hps
  exact mem_cells.mpr ⟨this.1.1, this.1.2⟩

lemma maskGrid_val_cases (g : Grid) (m : ℕ × ℕ → Prop) [DecidablePred m]
    (r c : ℕ) : (maskGrid g m).val r c = g.val r c ∨ (maskGrid g m).val r c = 0 := by
  rw [maskGrid_val]
  split_ifs
  · exact Or.inl rfl
  · exact Or.inr rfl

/-! ## Witness inputs -/

/-- An all-zero `R × C` grid. -/
def zeroGrid (R C : ℕ) : Grid := ⟨R, C, fun _ _ => 0⟩

/-- A 2×2 grid with two diagonally placed (hence 4-disconnected) pressure
dots: exercises the centroid-assignment path of `_separate_feet`. -/
def twoDotGrid : Grid := ⟨2, 2, fun r c => if r = c then 7 else 0⟩

/-- A 1×4 grid fully covered by one horizontal pressure bar: a single wide
component straddling the midline, exercising the forced-split path. -/
def barGrid : Grid := ⟨1, 4, fun r c => if r = 0 ∧ c < 4 then 7 else 0⟩

/-! ## Claims -/

/-- C1: mass conservation under foot separation.  For every cleaned grid
(non-negative values) with nonzero total pressure, whatever branch
`_separate_feet` commits (forced split or centroid assignment), the
returned left and right foot grids satisfy
`left[r,c] + right[r,c] == cleaned[r,c]` at every in-bounds cell, and no
cell is positive in both outputs. -/
theorem c1_mass_conservation (g : Grid) (h : totalSum g ≠ 0)
    (hnn : ∀ r c, 0 ≤ g.val r c) (r c : ℕ) (hr : r < g.rows) (hc : c < g.cols) :
    (separateFeet g).1.val r c + (separateFeet g).2.val r c = g.val r c ∧
      ¬ (0 < (separateFeet g).1.val r c ∧ 0 < (separateFeet g).2.val r c) := by
  rcases separateFeet_branches g h with hbr | hbr
  · rw [hbr]
    exact ⟨maskGrid_compl_val_add g (fun p => p.2 < g.cols / 2) (hnn r c) hr hc,
           maskGrid_compl_not_both g (fun p => p.2 < g.cols / 2) r c⟩
  · rw [hbr]
    exact ⟨maskGrid_compl_val_add g
             (fun p => comCol g (component g p) < ((g.cols / 2 : ℕ) : ℚ))
             (hnn r c) hr hc,
           maskGrid_compl_not_both g
             (fun p => comCol g (component g p) < ((g.cols / 2 : ℕ) : ℚ)) r c⟩

theorem c1_mass_conservation_witness :
    totalSum twoDotGrid ≠ 0 ∧
      (separateFeet twoDotGrid).1.val 0 0 + (separateFeet twoDotGrid).2.val 0 0 =
        twoDotGrid.val 0 0 :=
  ⟨by decide,
   (c1_mass_conservation twoDotGrid (by decide)
      (fun r c => by simp only [twoDotGrid]; split_ifs <;> norm_num)
      0 0 (by decide) (by decide)).1⟩

/-- C3: forced split of a merged blob.  For a cleaned grid (non-negative
values) whose positive mask forms exactly one connected component, when the
component's column slice straddles the midline and its width exceeds a
third of the columns (`forcedCondition`), and there is pressure strictly
left of the midline and at-or-right of it, `_separate_feet` commits the
forced split: cells left of `mid` form the left foot, cells at or right of
`mid` the right foot, and both outputs carry nonzero pressure. -/
theorem c3_forced_split (g : Grid) (hnn : ∀ r c, 0 ≤ g.val r c)
    (h1 : numFeatures g = 1) (h2 : forcedCondition g (g.cols / 2))
    (hL : ∃ p ∈ g.support, p.2 < g.cols / 2)
    (hR : ∃ p ∈ g.support, ¬ p.2 < g.cols / 2) :
    separateFeet g = (forcedLeft g (g.cols / 2), forcedRight g (g.cols / 2)) ∧
      (∀ r c, (separateFeet g).1.val r c =
        if (r, c) ∈ g.support ∧ c < g.cols / 2 then g.val r c else 0) ∧
      (∀ r c, (separateFeet g).2.val r c =
        if (r, c) ∈ g.support ∧ ¬ c < g.cols / 2 then g.val r c else 0) ∧
      0 < totalSum (separateFeet g).1 ∧ 0 < totalSum (separateFeet g).2 := by
  have hLpos : 0 < totalSum (forcedLeft g (g.cols / 2)) :=
    totalSum_maskGrid_pos g _ hL
  have hRpos : 0 < totalSum (forcedRight g (g.cols / 2)) :=
    totalSum_maskGrid_pos g _ hR
  have hne : totalSum g ≠ 0 := by
    obtain ⟨p, hps, _⟩ := hL
    exact ne_of_gt (totalSum_pos_of_support g hnn ⟨p, hps⟩)
  have heq : separateFeet g = (forcedLeft g (g.cols / 2), forcedRight g (g.cols / 2)) := by
    unfold separateFeet
    rw [if_neg hne, if_pos ⟨h1, h2, hLpos, hRpos⟩]
  refine ⟨heq, ?_, ?_, ?_, ?_⟩ <;> rw [heq]
  · intro r c
    exact maskGrid_val g (fun p => p.2 < g.cols / 2) r c
  · intro r c
    exact maskGrid_val g (fun p => ¬ p.2 < g.cols / 2) r c
  · exact hLpos
  · exact hRpos

theorem c3_forced_split_witness :
    numFeatures barGrid = 1 ∧ forcedCondition barGrid (barGrid.cols / 2) ∧
      0 < totalSum (separateFeet barGrid).1 ∧
      0 < totalSum (separateFeet barGrid).2 :=
  ⟨by decide, by decide,
   (c3_forced_split barGrid
      (fun r c => by simp only [barGrid]; split_ifs <;> norm_num)
      (by decide) (by decide) (by decide) (by decide)).2.2.2⟩

/-- C9 (amended): foot grid shape.  When the cleaned grid has nonzero total
pressure, both outputs of `_separate_feet` have the cleaned grid's shape and
every cell is either the cleaned value (inside the assigned mask) or zero;
when the total pressure is zero, both outputs are the empty zero-size array
`np.array([])`, not zero grids of the cleaned grid's shape. -/
theorem c9_foot_grid_shape (g : Grid) :
    (totalSum g ≠ 0 →
      (separateFeet g).1.rows = g.rows ∧ (separateFeet g).1.cols = g.cols ∧
      (separateFeet g).2.rows = g.rows ∧ (separateFeet g).2.cols = g.cols ∧
      ∀ r c,
        ((separateFeet g).1.val r c = g.val r c ∨ (separateFeet g).1.val r c = 0) ∧
        ((separateFeet g).2.val r c = g.val r c ∨ (separateFeet g).2.val r c = 0)) ∧
    (totalSum g = 0 → separateFeet g = (Grid.empty, Grid.empty)) := by
  constructor
  · intro h
    rcases separateFeet_branches g h with hbr | hbr
    · rw [hbr]
      exact ⟨rfl, rfl, rfl, rfl, fun r c =>
        ⟨maskGrid_val_cases g (fun p => p.2 < g.cols / 2) r c,
         maskGrid_val_cases g (fun p => ¬ p.2 < g.cols / 2) r c⟩⟩
    · rw [hbr]
      exact ⟨rfl, rfl, rfl, rfl, fun r c =>
        ⟨maskGrid_val_cases g
           (fun p => comCol g (component g p) < ((g.cols / 2 : ℕ) : ℚ)) r c,
         maskGrid_val_cases g
           (fun p => ¬ comCol g (component g p) < ((g.cols / 2 : ℕ) : ℚ)) r c⟩⟩
  · intro h
    unfold separateFeet
    rw [if_pos h]

set_option maxRecDepth 4000 in
/-- C9 counterexample: on a 10×10 all-zero cleaned grid, `_separate_feet`
returns `np.array([])` (zero rows), not a zero grid of the input's 10×10
shape — refuting the claim's "zero grids of that same shape". -/
theorem c9_foot_grid_shape_counterexample :
    totalSum (zeroGrid 10 10) = 0 ∧
      (separateFeet (zeroGrid 10 10)).1.rows ≠ (zeroGrid 10 10).rows := by
  constructor
  · decide
  · decide

theorem c9_foot_grid_shape_witness :
    (separateFeet twoDotGrid).1.rows = twoDotGrid.rows ∧
      separateFeet (zeroGrid 3 3) = (Grid.empty, Grid.empty) :=
  ⟨((c9_foot_grid_shape twoDotGrid).1 (by decide)).1,
   (c9_foot_grid_shape (zeroGrid 3 3)).2 (by decide)⟩

/-- C4 (amended): zone monotonicity.  For every bounding box
`(min_row, max_row)` whose height `max_row - min_row + 1` is at least 4, the
zones computed with the default ratios (hind 0.3, mid 0.4) are defined and
satisfy the chain
`hind.start < hind.stop ≤ mid.start < mid.stop ≤ fore.start < fore.stop`
together with `hind.stop = mid.start`, `mid.stop = fore.start` and
`fore.stop = max_row + 1`.  (The claim's bound "height ≥ 3" fails: at height
exactly 3 the hind zone is empty, see the counterexample.) -/
theorem c4_zone_chain (minR maxR : ℕ) (h : 4 ≤ maxR - minR + 1) :
    (getFootZoneIndices (some (minR, maxR))).isSome ∧
      ∀ z ∈ getFootZoneIndices (some (minR, maxR)),
        z.hind.start < z.hind.stop ∧ z.hind.stop ≤ z.mid.start ∧
        z.mid.start < z.mid.stop ∧ z.mid.stop ≤ z.fore.start ∧
        z.fore.start < z.fore.stop ∧
        z.hind.stop = z.mid.start ∧ z.mid.stop = z.fore.start ∧
        z.fore.stop = maxR + 1 := by
  constructor
  · simp only [getFootZoneIndices]
    rw [if_neg (by omega)]
    rfl
  · intro z hz
    simp only [getFootZoneIndices] at hz
    rw [if_neg (by omega)] at hz
    have hzeq := Option.mem_some_iff.mp hz
    subst hzeq
    dsimp only
    refine ⟨?_, le_refl _, ?_, le_refl _, ?_, rfl, rfl, rfl⟩ <;> omega

theorem c4_zone_chain_witness :
    4 ≤ 3 - 0 + 1 ∧ (getFootZoneIndices (some (0, 3))).isSome :=
  ⟨by norm_num, (c4_zone_chain 0 3 (by norm_num)).1⟩

/-- C4 counterexample: the bounding box `(0, 2)` has height 3 (so the claim
as stated applies), yet `int(3 * 0.3) = 0` makes the hind zone empty:
`hind.start = hind.stop = 0`, refuting `hind.start < hind.stop`. -/
theorem c4_zone_chain_counterexample :
    (getFootZoneIndices (some (0, 2))).isSome = true ∧
      Option.all (fun z => decide (z.hind.start < z.hind.stop))
        (getFootZoneIndices (some (0, 2))) = false := by decide

/-- C7: arch classification boundaries with the default thresholds 0.21 and
0.26: high-arch exactly when `index ≤ 0.21`, normal exactly when
`0.21 < index ≤ 0.26`, flat exactly when `index > 0.26`; in particular 0.21
is high-arch, 0.26 is normal and 0.2600001 is flat. -/
theorem c7_arch_boundaries :
    (∀ x : ℚ,
      (classifyArch x = "요족 (High Arch)" ↔ x ≤ 21 / 100) ∧
      (classifyArch x = "정상 (Normal)" ↔ 21 / 100 < x ∧ x ≤ 26 / 100) ∧
      (classifyArch x = "평발 (Flat Foot)" ↔ 26 / 100 < x)) ∧
    classifyArch (21 / 100) = "요족 (High Arch)" ∧
    classifyArch (26 / 100) = "정상 (Normal)" ∧
    classifyArch (2600001 / 10000000) = "평발 (Flat Foot)" := by
  refine ⟨?_, by norm_num [classifyArch], by norm_num [classifyArch],
          by norm_num [classifyArch]⟩
  intro x
  unfold classifyArch
  split_ifs with h1 h2
  · exact ⟨iff_of_true rfl h1,
      iff_of_false (by decide) fun hh => absurd h1 (not_le.mpr hh.1),
      iff_of_false (by decide) (not_lt.mpr (le_trans h1 (by norm_num)))⟩
  · exact ⟨iff_of_false (by decide) h1,
      iff_of_true rfl ⟨not_le.mp h1, h2⟩,
      iff_of_false (by decide) (not_lt.mpr h2)⟩
  · exact ⟨iff_of_false (by decide) fun hh => h1 (le_trans hh (by norm_num)),
      iff_of_false (by decide) fun hh => h2 hh.2,
      iff_of_true rfl (not_le.mp h2)⟩

/-- C5 (amended): all-zero-grid degenerate result.  For every all-zero input
grid the pipeline completes (it is a total function) with an absent center
of pressure, an empty distribution map, an absent bounding box — and an
*empty* foot-type map: `_analyze_foot_type` returns before storing anything
because no zones are defined, so there is no `no-data` entry for either
side. -/
theorem c5_all_zero_grid (g : Grid) (h : ∀ r c, g.val r c = 0) :
    (analyzeGrid g).cop = none ∧ (analyzeGrid g).distribution = [] ∧
      (analyzeGrid g).footTypes = [] ∧ (analyzeGrid g).finalBbox = none := by
  have hclean : ∀ r c, (filterNoise g).val r c = 0 := by
    intro r c
    unfold filterNoise
    split_ifs with h1
    · exact h r c
    · simp only [threshVal, h r c]
      norm_num
  have htot : totalSum (filterNoise g) = 0 :=
    Finset.sum_eq_zero fun p _ => hclean p.1 p.2
  have hsep : separateFeet (filterNoise g) = (Grid.empty, Grid.empty) := by
    unfold separateFeet
    rw [if_pos htot]
  refine ⟨?_, ?_, ?_, ?_⟩
  · show calcCop (filterNoise g) = none
    unfold calcCop
    rw [if_pos htot]
  · show distEntries (filterNoise g) = []
    unfold distEntries
    rw [hsep]
    decide
  · show analyzeFootType (separateFeet (filterNoise g)).1
      (separateFeet (filterNoise g)).2
      (getFootZoneIndices (combinedBbox (separateFeet (filterNoise g)).1
        (separateFeet (filterNoise g)).2)) = []
    rw [hsep]
    decide
  · show combinedBbox (separateFeet (filterNoise g)).1
      (separateFeet (filterNoise g)).2 = none
    rw [hsep]
    decide

theorem c5_all_zero_grid_witness :
    (analyzeGrid (zeroGrid 10 10)).cop = none ∧
      (analyzeGrid (zeroGrid 10 10)).distribution = [] ∧
      (analyzeGrid (zeroGrid 10 10)).footTypes = [] ∧
      (analyzeGrid (zeroGrid 10 10)).finalBbox = none :=
  c5_all_zero_grid (zeroGrid 10 10) fun _ _ => rfl

set_option maxRecDepth 4000 in
/-- C5 counterexample: on the 10×10 all-zero grid the claim promises a
`no-data` foot-type entry for both the left and the right side, but the
stored foot-type map is empty: neither the left key (`왼쪽`) nor the right
key (`오른쪽`) is present. -/
theorem c5_all_zero_grid_counterexample :
    List.lookup "왼쪽" (analyzeGrid (zeroGrid 10 10)).footTypes = none ∧
      List.lookup "오른쪽" (analyzeGrid (zeroGrid 10 10)).footTypes = none := by
  constructor
  · decide
  · decide

/-! ## Morphological opening: supporting lemmas for noise-filter idempotence -/

lemma erodeM_eq_true {m : ℤ → ℤ → Bool} {r c : ℤ} :
    erodeM m r c = true ↔ ∀ d ∈ offsets, m (r + d.1) (c + d.2) = true := by
  simp [erodeM, List.all_eq_true]

lemma dilateM_eq_true {m : ℤ → ℤ → Bool} {r c : ℤ} :
    dilateM m r c = true ↔ ∃ d ∈ offsets, m (r + d.1) (c + d.2) = true := by
  simp [dilateM, List.any_eq_true]

lemma offsets_neg : ∀ d ∈ offsets, ((-d.1, -d.2) : ℤ × ℤ) ∈ offsets := by decide

/-- Opening is anti-extensive: an opened pixel was set in the original
mask. -/
lemma openM_le (m : ℤ → ℤ → Bool) (r c : ℤ) (h : openM m r c = true) :
    m r c = true := by
  unfold openM at h
  obtain ⟨d, hd, he⟩ := dilateM_eq_true.mp h
  have hh := erodeM_eq_true.mp he (-d.1, -d.2) (offsets_neg d hd)
  rw [show r + d.1 + -d.1 = r by ring, show c + d.2 + -d.2 = c by ring] at hh
  exact hh

/-- An eroded pixel stays eroded after opening the mask. -/
lemma erodeM_openM (m : ℤ → ℤ → Bool) (r c : ℤ) (h : erodeM m r c = true) :
    erodeM (openM m) r c = true := by
  rw [erodeM_eq_true]
  intro d hd
  unfold openM
  refine dilateM_eq_true.mpr ⟨(-d.1, -d.2), offsets_neg d hd, ?_⟩
  rw [show r + d.1 + -d.1 = r by ring, show c + d.2 + -d.2 = c by ring]
  exact h

/-- Opening is idempotent (pointwise, on the whole plane ℤ²). -/
lemma openM_idem (m : ℤ → ℤ → Bool) (r c : ℤ) :
    openM (openM m) r c = openM m r c := by
  cases h : openM m r c with
  | false =>
    rw [Bool.eq_false_iff]
    intro ht
    have := openM_le (openM m) r c ht
    rw [h] at this
    exact Bool.false_ne_true this
  | true =>
    have h' := h
    unfold openM at h' ⊢
    obtain ⟨d, hd, he⟩ := dilateM_eq_true.mp h'
    exact dilateM_eq_true.mpr ⟨d, hd, erodeM_openM m _ _ he⟩

/-- C6: idempotence of noise filtering.  For every grid, applying
`_filter_noise` (threshold at the default 5, 3×3 binary opening, re-mask) to
its own output leaves that output unchanged as an array: same shape and the
same value at every in-bounds cell. -/
theorem c6_filter_noise_idempotent (g : Grid) :
    GridEqOn (filterNoise (filterNoise g)) (filterNoise g) := by
  by_cases hm : maxVal g = 0
  · have h1 : filterNoise g = g := by
      unfold filterNoise
      rw [if_pos hm]
    rw [h1, h1]
    exact ⟨rfl, rfl, fun r _ c _ => rfl⟩
  · have hke : filterNoise g = ⟨g.rows, g.cols,
        fun r c => if openM (binMask g) r c then threshVal g r c else 0⟩ := by
      unfold filterNoise
      rw [if_neg hm]
    rw [hke]
    by_cases hm2 : maxVal ⟨g.rows, g.cols,
        fun r c => if openM (binMask g) r c then threshVal g r c else 0⟩ = 0
    · have h2 : filterNoise ⟨g.rows, g.cols,
          fun r c => if openM (binMask g) r c then threshVal g r c else 0⟩ =
          ⟨g.rows, g.cols,
          fun r c => if openM (binMask g) r c then threshVal g r c else 0⟩ := by
        unfold filterNoise
        rw [if_pos hm2]
      rw [h2]
      exact ⟨rfl, rfl, fun r _ c _ => rfl⟩
    · have hker : filterNoise ⟨g.rows, g.cols,
          fun r c => if openM (binMask g) r c then threshVal g r c else 0⟩ =
          ⟨g.rows, g.cols, fun r c =>
            if openM (binMask ⟨g.rows, g.cols,
              fun r c => if openM (binMask g) r c then threshVal g r c else 0⟩) r c
            then threshVal ⟨g.rows, g.cols,
              fun r c => if openM (binMask g) r c then threshVal g r c else 0⟩ r c
            else 0⟩ := by
        unfold filterNoise
        rw [if_neg hm2]
      rw [hker]
      generalize hK : (⟨g.rows, g.cols,
        fun r c => if openM (binMask g) r c then threshVal g r c else 0⟩ : Grid) = K at *
      have hKval : ∀ a b : ℕ, K.val a b =
          if openM (binMask g) a b then threshVal g a b else 0 := by
        intro a b
        rw [← hK]
      have hKrows : K.rows = g.rows := by rw [← hK]
      have hKcols : K.cols = g.cols := by rw [← hK]
      have hthresh : ∀ a b : ℕ, threshVal K a b = K.val a b := by
        intro a b
        show (if 5 < K.val a b then K.val a b else 0) = K.val a b
        rw [hKval a b]
        cases hP : openM (binMask g) (a : ℤ) (b : ℤ)
        · simp [hP]
        · simp only [hP]
          show (if 5 < threshVal g a b then threshVal g a b else 0) = threshVal g a b
          unfold threshVal
          split_ifs <;> omega
      have hbdef : ∀ (h : Grid) (x y : ℤ), binMask h x y =
          (decide (0 ≤ x ∧ x < (h.rows : ℤ) ∧ 0 ≤ y ∧ y < (h.cols : ℤ)) &&
            decide (0 < threshVal h x.toNat y.toNat)) := fun h x y => rfl
      have hbmk : binMask K = fun x y => openM (binMask g) x y && binMask g x y := by
        funext x y
        rw [hbdef K, hbdef g, hKrows, hKcols, hthresh, hKval]
        by_cases hb : 0 ≤ x ∧ x < (g.rows : ℤ) ∧ 0 ≤ y ∧ y < (g.cols : ℤ)
        · rw [decide_eq_true hb, Bool.true_and, Bool.true_and]
          have hx : ((x.toNat : ℕ) : ℤ) = x := Int.toNat_of_nonneg hb.1
          have hy : ((y.toNat : ℕ) : ℤ) = y := Int.toNat_of_nonneg hb.2.2.1
          rw [hx, hy]
          cases hP : openM (binMask g) x y
          · simp [hP]
          · simp [hP]
        · simp [decide_eq_false hb]
      refine ⟨hKrows.symm, hKcols.symm, ?_⟩
      intro r hr c hc
      show (if openM (binMask K) r c then threshVal K r c else 0) = K.val r c
      have habs : (fun x y => openM (binMask g) x y && binMask g x y) =
          openM (binMask g) := by
        funext x y
        cases ho : openM (binMask g) x y
        · simp
        · simp [openM_le _ _ _ ho]
      rw [hbmk, habs, openM_idem, hthresh, hKval]
      split_ifs <;> rfl

theorem c6_filter_noise_idempotent_witness :
    GridEqOn (filterNoise (filterNoise barGrid)) (filterNoise barGrid) :=
  c6_filter_noise_idempotent barGrid

/-! ## Distribution layer: supporting lemmas -/

lemma totalSum_eq_rowSums (g : Grid) :
    totalSum g = ∑ r in Finset.range g.rows, rowSum g r := by
  unfold totalSum rowSum Grid.cells
  rw [Finset.sum_product]

lemma slice_partition (f : Grid) (a b c d : ℕ)
    (hab : a ≤ b) (hbc : b ≤ c) (hcd : c ≤ d)
    (hout : ∀ r, r < a ∨ d ≤ r → rowSum f r = 0)
    (hhigh : ∀ r, f.rows ≤ r → rowSum f r = 0) :
    sliceSum f a b + sliceSum f b c + sliceSum f c d = totalSum f := by
  unfold sliceSum
  rw [Finset.sum_Ico_consecutive _ hab hbc, Finset.sum_Ico_consecutive _ (le_trans hab hbc) hcd,
    totalSum_eq_rowSums]
  have h1 : ∑ r in Finset.Ico a d, rowSum f r =
      ∑ r in Finset.range f.rows ∪ Finset.Ico a d, rowSum f r := by
    refine Finset.sum_subset (fun x hx => Finset.mem_union_right _ hx) ?_
    intro x _ hx
    rw [Finset.mem_Ico] at hx
    rcases Nat.lt_or_ge x f.rows with hlt | hge
    · exact hout x (by omega)
    · exact hhigh x hge
  have h2 : ∑ r in Finset.range f.rows, rowSum f r =
      ∑ r in Finset.range f.rows ∪ Finset.Ico a d, rowSum f r := by
    refine Finset.sum_subset (fun x hx => Finset.mem_union_left _ hx) ?_
    intro x _ hx
    rw [Finset.mem_range, not_lt] at hx
    exact hhigh x hx
  rw [h1, ← h2]

lemma rowSum_nonneg (f : Grid) (hnn : ∀ r c, 0 ≤ f.val r c) (r : ℕ) :
    0 ≤ rowSum f r :=
  Finset.sum_nonneg fun c _ => hnn r c

lemma sliceSum_nonneg (f : Grid) (hnn : ∀ r c, 0 ≤ f.val r c) (a b : ℕ) :
    0 ≤ sliceSum f a b :=
  Finset.sum_nonneg fun r _ => rowSum_nonneg f hnn r

lemma exists_pos_cell (f : Grid) (hnn : ∀ r c, 0 ≤ f.val r c)
    (hft : totalSum f ≠ 0) : ∃ p ∈ f.cells, 0 < f.val p.1 p.2 := by
  by_contra hno
  push_neg at hno
  exact hft (Finset.sum_eq_zero fun p hp => le_antisymm (hno p hp) (hnn p.1 p.2))

lemma mem_pressureRows {f : Grid} {r : ℕ} :
    r ∈ pressureRows f ↔ r < f.rows ∧ ∃ c, c < f.cols ∧ 0 < f.val r c := by
  unfold pressureRows
  simp

lemma pressureRows_nonempty (f : Grid) (hnn : ∀ r c, 0 ≤ f.val r c)
    (hft : totalSum f ≠ 0) : (pressureRows f).Nonempty := by
  obtain ⟨p, hp, hpos⟩ := exists_pos_cell f hnn hft
  rw [mem_cells] at hp
  exact ⟨p.1, mem_pressureRows.mpr ⟨hp.1, p.2, hp.2, hpos⟩⟩

lemma virtualFootprint_eq (f : Grid) (hnn : ∀ r c, 0 ≤ f.val r c)
    (hft : totalSum f ≠ 0) :
    ∃ h : (pressureRows f).Nonempty,
      virtualFootprint f = some ((pressureRows f).min' h, (pressureRows f).max' h) := by
  have h := pressureRows_nonempty f hnn hft
  refine ⟨h, ?_⟩
  unfold virtualFootprint
  rw [if_neg hft, dif_pos h]

lemma pct_nonneg (foot : Grid) (zr : ZoneRange)
    (hnn : ∀ r c, 0 ≤ foot.val r c) (hT : (0:ℚ) < (totalSum foot : ℚ)) :
    0 ≤ pct foot zr := by
  unfold pct
  refine mul_nonneg (div_nonneg ?_ hT.le) (by norm_num)
  exact_mod_cast sliceSum_nonneg foot hnn zr.start zr.stop

lemma pct_le_100 (foot : Grid) (zr : ZoneRange)
    (hT : (0:ℚ) < (totalSum foot : ℚ))
    (hle : sliceSum foot zr.start zr.stop ≤ totalSum foot) :
    pct foot zr ≤ 100 := by
  unfold pct
  rw [div_mul_eq_mul_div, div_le_iff₀ hT]
  have h : ((sliceSum foot zr.start zr.stop : ℤ) : ℚ) ≤ (totalSum foot : ℚ) := by
    exact_mod_cast hle
  linarith

lemma side_pct_facts (foot : Grid) (bmin bmax : ℕ)
    (hnn : ∀ r c, 0 ≤ foot.val r c)
    (hhigh : ∀ r, foot.rows ≤ r → rowSum foot r = 0)
    (hsupp : ∀ r ∈ pressureRows foot, bmin ≤ r ∧ r ≤ bmax)
    (hft : totalSum foot ≠ 0)
    (z : Zones) (hz : getFootZoneIndices (some (bmin, bmax)) = some z) :
    pct foot z.hind + pct foot z.mid + pct foot z.fore = 100 ∧
      (0 ≤ pct foot z.hind ∧ pct foot z.hind ≤ 100) ∧
      (0 ≤ pct foot z.mid ∧ pct foot z.mid ≤ 100) ∧
      (0 ≤ pct foot z.fore ∧ pct foot z.fore ≤ 100) := by
  have h0 : 0 ≤ totalSum foot := by
    unfold totalSum
    exact Finset.sum_nonneg fun p _ => hnn p.1 p.2
  have hTpos : 0 < totalSum foot := by omega
  have hTq : (0:ℚ) < (totalSum foot : ℚ) := by exact_mod_cast hTpos
  simp only [getFootZoneIndices] at hz
  split_ifs at hz with hlt
  have hzeq := (Option.some.injEq _ _).mp hz
  subst hzeq
  dsimp only
  have hout : ∀ r, r < bmin ∨ bmax + 1 ≤ r → rowSum foot r = 0 := by
    intro r hr
    rcases Nat.lt_or_ge r foot.rows with hrow | hrow
    · refine Finset.sum_eq_zero fun c hc => ?_
      by_contra hne
      have hpos : 0 < foot.val r c := lt_of_le_of_ne (hnn r c) (Ne.symm hne)
      have hmem : r ∈ pressureRows foot :=
        mem_pressureRows.mpr ⟨hrow, c, Finset.mem_range.mp hc, hpos⟩
      have := hsupp r hmem
      omega
    · exact hhigh r hrow
  have hpart := slice_partition foot bmin (bmin + 3 * (bmax - bmin + 1) / 10)
    (bmin + 3 * (bmax - bmin + 1) / 10 + 4 * (bmax - bmin + 1) / 10) (bmax + 1)
    (by omega) (by omega) (by omega) hout hhigh
  have hs1 := sliceSum_nonneg foot hnn bmin (bmin + 3 * (bmax - bmin + 1) / 10)
  have hs2 := sliceSum_nonneg foot hnn (bmin + 3 * (bmax - bmin + 1) / 10)
    (bmin + 3 * (bmax - bmin + 1) / 10 + 4 * (bmax - bmin + 1) / 10)
  have hs3 := sliceSum_nonneg foot hnn
    (bmin + 3 * (bmax - bmin + 1) / 10 + 4 * (bmax - bmin + 1) / 10) (bmax + 1)
  refine ⟨?_, ⟨pct_nonneg foot _ hnn hTq, pct_le_100 foot _ hTq (by dsimp only; omega)⟩,
    ⟨pct_nonneg foot _ hnn hTq, pct_le_100 foot _ hTq (by dsimp only; omega)⟩,
    ⟨pct_nonneg foot _ hnn hTq, pct_le_100 foot _ hTq (by dsimp only; omega)⟩⟩
  unfold pct
  dsimp only
  rw [div_mul_eq_mul_div, div_mul_eq_mul_div, div_mul_eq_mul_div,
    div_add_div_same, div_add_div_same, div_eq_iff (ne_of_gt hTq)]
  have hcast : ((sliceSum foot bmin (bmin + 3 * (bmax - bmin + 1) / 10) : ℤ) : ℚ) +
      ((sliceSum foot (bmin + 3 * (bmax - bmin + 1) / 10)
        (bmin + 3 * (bmax - bmin + 1) / 10 + 4 * (bmax - bmin + 1) / 10) : ℤ) : ℚ) +
      ((sliceSum foot
        (bmin + 3 * (bmax - bmin + 1) / 10 + 4 * (bmax - bmin + 1) / 10)
        (bmax + 1) : ℤ) : ℚ) = ((totalSum foot : ℤ) : ℚ) := by
    exact_mod_cast congrArg (fun n : ℤ => (n : ℚ)) hpart
  linarith

lemma rowSum_maskGrid_high (g : Grid) (m : ℕ × ℕ → Prop) [DecidablePred m]
    (r : ℕ) (hr : g.rows ≤ r) : rowSum (maskGrid g m) r = 0 := by
  refine Finset.sum_eq_zero fun c _ => ?_
  rw [maskGrid_val, if_neg]
  rintro ⟨hs, _⟩
  have := (mem_support.mp hs).1.1
  omega

lemma sep_nonneg (g : Grid) :
    (∀ r c, 0 ≤ (separateFeet g).1.val r c) ∧
      (∀ r c, 0 ≤ (separateFeet g).2.val r c) := by
  by_cases h : totalSum g = 0
  · unfold separateFeet
    rw [if_pos h]
    exact ⟨fun r c => le_refl 0, fun r c => le_refl 0⟩
  · rcases separateFeet_branches g h with hbr | hbr
    · rw [hbr]
      exact ⟨fun r c => maskGrid_val_nonneg g (fun p => p.2 < g.cols / 2) r c,
             fun r c => maskGrid_val_nonneg g (fun p => ¬ p.2 < g.cols / 2) r c⟩
    · rw [hbr]
      exact ⟨fun r c => maskGrid_val_nonneg g
               (fun p => comCol g (component g p) < ((g.cols / 2 : ℕ) : ℚ)) r c,
             fun r c => maskGrid_val_nonneg g
               (fun p => ¬ comCol g (component g p) < ((g.cols / 2 : ℕ) : ℚ)) r c⟩

lemma sep_rowSum_high (g : Grid) :
    (∀ r, (separateFeet g).1.rows ≤ r → rowSum (separateFeet g).1 r = 0) ∧
      (∀ r, (separateFeet g).2.rows ≤ r → rowSum (separateFeet g).2 r = 0) := by
  by_cases h : totalSum g = 0
  · unfold separateFeet
    rw [if_pos h]
    constructor <;> intro r _ <;> simp [rowSum, Grid.empty]
  · rcases separateFeet_branches g h with hbr | hbr
    · rw [hbr]
      exact ⟨fun r hr => rowSum_maskGrid_high g (fun p => p.2 < g.cols / 2) r hr,
             fun r hr => rowSum_maskGrid_high g (fun p => ¬ p.2 < g.cols / 2) r hr⟩
    · rw [hbr]
      exact ⟨fun r hr => rowSum_maskGrid_high g
               (fun p => comCol g (component g p) < ((g.cols / 2 : ℕ) : ℚ)) r hr,
             fun r hr => rowSum_maskGrid_high g
               (fun p => ¬ comCol g (component g p) < ((g.cols / 2 : ℕ) : ℚ)) r hr⟩

lemma combinedBbox_bounds_left (left right : Grid) (bmin bmax : ℕ)
    (hnn : ∀ r c, 0 ≤ left.val r c) (hft : totalSum left ≠ 0)
    (hcb : combinedBbox left right = some (bmin, bmax)) :
    ∀ r ∈ pressureRows left, bmin ≤ r ∧ r ≤ bmax := by
  obtain ⟨hne, hvf⟩ := virtualFootprint_eq left hnn hft
  intro r hr
  have h1 : (pressureRows left).min' hne ≤ r := Finset.min'_le _ r hr
  have h2 : r ≤ (pressureRows left).max' hne := Finset.le_max' _ r hr
  unfold combinedBbox at hcb
  rw [hvf] at hcb
  cases hvr : virtualFootprint right with
  | none =>
    rw [hvr] at hcb
    simp only [Option.some.injEq, Prod.mk.injEq] at hcb
    omega
  | some b =>
    rw [hvr] at hcb
    simp only [Option.some.injEq, Prod.mk.injEq] at hcb
    obtain ⟨e1, e2⟩ := hcb
    have := min_le_left ((pressureRows left).min' hne) b.1
    have := le_max_left ((pressureRows left).max' hne) b.2
    omega

lemma combinedBbox_bounds_right (left right : Grid) (bmin bmax : ℕ)
    (hnn : ∀ r c, 0 ≤ right.val r c) (hft : totalSum right ≠ 0)
    (hcb : combinedBbox left right = some (bmin, bmax)) :
    ∀ r ∈ pressureRows right, bmin ≤ r ∧ r ≤ bmax := by
  obtain ⟨hne, hvf⟩ := virtualFootprint_eq right hnn hft
  intro r hr
  have h1 : (pressureRows right).min' hne ≤ r := Finset.min'_le _ r hr
  have h2 : r ≤ (pressureRows right).max' hne := Finset.le_max' _ r hr
  unfold combinedBbox at hcb
  rw [hvf] at hcb
  cases hvl : virtualFootprint left with
  | none =>
    rw [hvl] at hcb
    simp only [Option.some.injEq, Prod.mk.injEq] at hcb
    omega
  | some b =>
    rw [hvl] at hcb
    simp only [Option.some.injEq, Prod.mk.injEq] at hcb
    obtain ⟨e1, e2⟩ := hcb
    have := min_le_right b.1 ((pressureRows right).min' hne)
    have := le_max_right b.2 ((pressureRows right).max' hne)
    omega

lemma distEntries_eq (g : Grid) (bbox : ℕ × ℕ) (z : Zones)
    (hcb : combinedBbox (separateFeet g).1 (separateFeet g).2 = some bbox)
    (hzz : getFootZoneIndices (some bbox) = some z)
    (hne : ¬ totalSum (separateFeet g).1 + totalSum (separateFeet g).2 = 0) :
    distEntries g = sideEntries "L" (separateFeet g).1 z ++
      sideEntries "R" (separateFeet g).2 z := by
  unfold distEntries
  rw [hcb]
  dsimp only
  rw [if_neg hne, hzz]

/-- A 4×2 grid whose left column carries pressure at every row: one foot
only, bounding box of height 4, zones defined. -/
def colGrid : Grid := ⟨4, 2, fun _ c => if c = 0 then 7 else 0⟩

/-- C2: distribution sums to 100.  For every cleaned grid whose analysis
defines zones, each side whose foot grid has nonzero total pressure stores
three percentages (hind/mid/fore) in the distribution that sum to exactly
100 (the floating-point computation is modelled exactly over ℚ, where the
sum is exact). -/
theorem c2_distribution_sums_to_100 (g : Grid)
    (hz : getFootZoneIndices
      (combinedBbox (separateFeet g).1 (separateFeet g).2) ≠ none) :
    (totalSum (separateFeet g).1 ≠ 0 →
      (List.lookup "LH" (distEntries g)).getD 0 +
        (List.lookup "LM" (distEntries g)).getD 0 +
        (List.lookup "LF" (distEntries g)).getD 0 = 100) ∧
    (totalSum (separateFeet g).2 ≠ 0 →
      (List.lookup "RH" (distEntries g)).getD 0 +
        (List.lookup "RM" (distEntries g)).getD 0 +
        (List.lookup "RF" (distEntries g)).getD 0 = 100) := by
  obtain ⟨bbox, hcb⟩ : ∃ b,
      combinedBbox (separateFeet g).1 (separateFeet g).2 = some b := by
    cases h : combinedBbox (separateFeet g).1 (separateFeet g).2 with
    | none => rw [h] at hz; exact absurd rfl hz
    | some b => exact ⟨b, rfl⟩
  obtain ⟨z, hzz⟩ : ∃ z, getFootZoneIndices (some bbox) = some z := by
    rw [hcb] at hz
    cases h : getFootZoneIndices (some bbox) with
    | none => exact absurd h hz
    | some z => exact ⟨z, rfl⟩
  obtain ⟨bmin, bmax⟩ := bbox
  have hnnL := (sep_nonneg g).1
  have hnnR := (sep_nonneg g).2
  have hhighL := (sep_rowSum_high g).1
  have hhighR := (sep_rowSum_high g).2
  have h0L : 0 ≤ totalSum (separateFeet g).1 := by
    unfold totalSum
    exact Finset.sum_nonneg fun p _ => hnnL p.1 p.2
  have h0R : 0 ≤ totalSum (separateFeet g).2 := by
    unfold totalSum
    exact Finset.sum_nonneg fun p _ => hnnR p.1 p.2
  constructor
  · intro hL
    have hne : ¬ totalSum (separateFeet g).1 + totalSum (separateFeet g).2 = 0 := by
      omega
    have hdist := distEntries_eq g (bmin, bmax) z hcb hzz hne
    have hsuppL := combinedBbox_bounds_left _ _ _ _ hnnL hL hcb
    have hfacts := side_pct_facts (separateFeet g).1 bmin bmax hnnL hhighL hsuppL hL z hzz
    have hSL : sideEntries "L" (separateFeet g).1 z =
        [("LH", pct (separateFeet g).1 z.hind),
         ("LM", pct (separateFeet g).1 z.mid),
         ("LF", pct (separateFeet g).1 z.fore)] := by
      unfold sideEntries
      rw [if_neg hL]
      rfl
    rw [hdist, hSL]
    have l1 : List.lookup "LH"
        ([("LH", pct (separateFeet g).1 z.hind),
          ("LM", pct (separateFeet g).1 z.mid),
          ("LF", pct (separateFeet g).1 z.fore)] ++
          sideEntries "R" (separateFeet g).2 z) =
        some (pct (separateFeet g).1 z.hind) := rfl
    have l2 : List.lookup "LM"
        ([("LH", pct (separateFeet g).1 z.hind),
          ("LM", pct (separateFeet g).1 z.mid),
          ("LF", pct (separateFeet g).1 z.fore)] ++
          sideEntries "R" (separateFeet g).2 z) =
        some (pct (separateFeet g).1 z.mid) := rfl
    have l3 : List.lookup "LF"
        ([("LH", pct (separateFeet g).1 z.hind),
          ("LM", pct (separateFeet g).1 z.mid),
          ("LF", pct (separateFeet g).1 z.fore)] ++
          sideEntries "R" (separateFeet g).2 z) =
        some (pct (separateFeet g).1 z.fore) := rfl
    rw [l1, l2, l3]
    simpa using hfacts.1
  · intro hR
    have hne : ¬ totalSum (separateFeet g).1 + totalSum (separateFeet g).2 = 0 := by
      omega
    have hdist := distEntries_eq g (bmin, bmax) z hcb hzz hne
    have hsuppR := combinedBbox_bounds_right _ _ _ _ hnnR hR hcb
    have hfacts := side_pct_facts (separateFeet g).2 bmin bmax hnnR hhighR hsuppR hR z hzz
    have hSR : sideEntries "R" (separateFeet g).2 z =
        [("RH", pct (separateFeet g).2 z.hind),
         ("RM", pct (separateFeet g).2 z.mid),
         ("RF", pct (separateFeet g).2 z.fore)] := by
      unfold sideEntries
      rw [if_neg hR]
      rfl
    rw [hdist, hSR]
    by_cases hL0 : totalSum (separateFeet g).1 = 0
    · have hSL : sideEntries "L" (separateFeet g).1 z = [] := by
        unfold sideEntries
        rw [if_pos hL0]
      rw [hSL]
      simp only [List.nil_append, List.lookup, Option.getD]
      simpa using hfacts.1
    · have hSL : sideEntries "L" (separateFeet g).1 z =
          [("LH", pct (separateFeet g).1 z.hind),
           ("LM", pct (separateFeet g).1 z.mid),
           ("LF", pct (separateFeet g).1 z.fore)] := by
        unfold sideEntries
        rw [if_neg hL0]
        rfl
      rw [hSL]
      have l1 : List.lookup "RH"
          ([("LH", pct (separateFeet g).1 z.hind),
            ("LM", pct (separateFeet g).1 z.mid),
            ("LF", pct (separateFeet g).1 z.fore)] ++
            [("RH", pct (separateFeet g).2 z.hind),
             ("RM", pct (separateFeet g).2 z.mid),
             ("RF", pct (separateFeet g).2 z.fore)]) =
          some (pct (separateFeet g).2 z.hind) := rfl
      have l2 : List.lookup "RM"
          ([("LH", pct (separateFeet g).1 z.hind),
            ("LM", pct (separateFeet g).1 z.mid),
            ("LF", pct (separateFeet g).1 z.fore)] ++
            [("RH", pct (separateFeet g).2 z.hind),
             ("RM", pct (separateFeet g).2 z.mid),
             ("RF", pct (separateFeet g).2 z.fore)]) =
          some (pct (separateFeet g).2 z.mid) := rfl
      have l3 : List.lookup "RF"
          ([("LH", pct (separateFeet g).1 z.hind),
            ("LM", pct (separateFeet g).1 z.mid),
            ("LF", pct (separateFeet g).1 z.fore)] ++
            [("RH", pct (separateFeet g).2 z.hind),
             ("RM", pct (separateFeet g).2 z.mid),
             ("RF", pct (separateFeet g).2 z.fore)]) =
          some (pct (separateFeet g).2 z.fore) := rfl
      rw [l1, l2, l3]
      simpa using hfacts.1


theorem c2_distribution_sums_to_100_witness :
    getFootZoneIndices
        (combinedBbox (separateFeet colGrid).1 (separateFeet colGrid).2) ≠ none ∧
      (List.lookup "LH" (distEntries colGrid)).getD 0 +
        (List.lookup "LM" (distEntries colGrid)).getD 0 +
        (List.lookup "LF" (distEntries colGrid)).getD 0 = 100 :=
  ⟨by decide, (c2_distribution_sums_to_100 colGrid (by decide)).1 (by decide)⟩

/-- C10 (implicit): distribution completeness and bounds.  When zones are
defined, each side with nonzero foot pressure contributes exactly its three
entries (keys `LH`/`LM`/`LF` resp. `RH`/`RM`/`RF`), present even when a
zone's own sum is zero; a side with zero total pressure contributes none;
and every stored percentage lies in `[0, 100]`. -/
theorem c10_distribution_completeness (g : Grid)
    (hz : getFootZoneIndices
      (combinedBbox (separateFeet g).1 (separateFeet g).2) ≠ none) :
    ((List.lookup "LH" (distEntries g)).isSome = true ↔
      totalSum (separateFeet g).1 ≠ 0) ∧
    ((List.lookup "LM" (distEntries g)).isSome = true ↔
      totalSum (separateFeet g).1 ≠ 0) ∧
    ((List.lookup "LF" (distEntries g)).isSome = true ↔
      totalSum (separateFeet g).1 ≠ 0) ∧
    ((List.lookup "RH" (distEntries g)).isSome = true ↔
      totalSum (separateFeet g).2 ≠ 0) ∧
    ((List.lookup "RM" (distEntries g)).isSome = true ↔
      totalSum (separateFeet g).2 ≠ 0) ∧
    ((List.lookup "RF" (distEntries g)).isSome = true ↔
      totalSum (separateFeet g).2 ≠ 0) ∧
    (distEntries g).length =
      (if totalSum (separateFeet g).1 = 0 then 0 else 3) +
        (if totalSum (separateFeet g).2 = 0 then 0 else 3) ∧
    (∀ kv ∈ distEntries g, 0 ≤ kv.2 ∧ kv.2 ≤ 100) := by
  obtain ⟨bbox, hcb⟩ : ∃ b,
      combinedBbox (separateFeet g).1 (separateFeet g).2 = some b := by
    cases h : combinedBbox (separateFeet g).1 (separateFeet g).2 with
    | none => rw [h] at hz; exact absurd rfl hz
    | some b => exact ⟨b, rfl⟩
  obtain ⟨z, hzz⟩ : ∃ z, getFootZoneIndices (some bbox) = some z := by
    rw [hcb] at hz
    cases h : getFootZoneIndices (some bbox) with
    | none => exact absurd h hz
    | some z => exact ⟨z, rfl⟩
  obtain ⟨bmin, bmax⟩ := bbox
  have hnnL := (sep_nonneg g).1
  have hnnR := (sep_nonneg g).2
  have hhighL := (sep_rowSum_high g).1
  have hhighR := (sep_rowSum_high g).2
  have h0L : 0 ≤ totalSum (separateFeet g).1 := by
    unfold totalSum
    exact Finset.sum_nonneg fun p _ => hnnL p.1 p.2
  have h0R : 0 ≤ totalSum (separateFeet g).2 := by
    unfold totalSum
    exact Finset.sum_nonneg fun p _ => hnnR p.1 p.2
  have hor : totalSum (separateFeet g).1 ≠ 0 ∨ totalSum (separateFeet g).2 ≠ 0 := by
    by_contra hno
    push_neg at hno
    have hvl : virtualFootprint (separateFeet g).1 = none := by
      unfold virtualFootprint
      rw [if_pos hno.1]
    have hvr : virtualFootprint (separateFeet g).2 = none := by
      unfold virtualFootprint
      rw [if_pos hno.2]
    unfold combinedBbox at hcb
    rw [hvl, hvr] at hcb
    exact Option.noConfusion hcb
  have hne : ¬ totalSum (separateFeet g).1 + totalSum (separateFeet g).2 = 0 := by
    rcases hor with h | h <;> omega
  have hdist := distEntries_eq g (bmin, bmax) z hcb hzz hne
  by_cases hL0 : totalSum (separateFeet g).1 = 0
  · -- only the right side contributes
    have hR : totalSum (separateFeet g).2 ≠ 0 := by
      rcases hor with h | h
      · exact absurd hL0 h
      · exact h
    have hsuppR := combinedBbox_bounds_right _ _ _ _ hnnR hR hcb
    have hfacts := side_pct_facts (separateFeet g).2 bmin bmax hnnR hhighR hsuppR hR z hzz
    have hSL : sideEntries "L" (separateFeet g).1 z = [] := by
      unfold sideEntries
      rw [if_pos hL0]
    have hSR : sideEntries "R" (separateFeet g).2 z =
        [("RH", pct (separateFeet g).2 z.hind),
         ("RM", pct (separateFeet g).2 z.mid),
         ("RF", pct (separateFeet g).2 z.fore)] := by
      unfold sideEntries
      rw [if_neg hR]
      rfl
    rw [hSL, hSR] at hdist
    simp only [List.nil_append] at hdist
    rw [hdist]
    refine ⟨by simp [List.lookup, hL0], by simp [List.lookup, hL0],
      by simp [List.lookup, hL0], by simp [List.lookup, hR],
      by simp [List.lookup, hR], by simp [List.lookup, hR],
      by rw [if_pos hL0, if_neg hR]; rfl, ?_⟩
    intro kv hkv
    simp only [List.mem_cons, List.not_mem_nil, or_false] at hkv
    rcases hkv with h | h | h <;> subst h
    · exact hfacts.2.1
    · exact hfacts.2.2.1
    · exact hfacts.2.2.2
  · have hL : totalSum (separateFeet g).1 ≠ 0 := hL0
    have hsuppL := combinedBbox_bounds_left _ _ _ _ hnnL hL hcb
    have hfactsL := side_pct_facts (separateFeet g).1 bmin bmax hnnL hhighL hsuppL hL z hzz
    have hSL : sideEntries "L" (separateFeet g).1 z =
        [("LH", pct (separateFeet g).1 z.hind),
         ("LM", pct (separateFeet g).1 z.mid),
         ("LF", pct (separateFeet g).1 z.fore)] := by
      unfold sideEntries
      rw [if_neg hL]
      rfl
    by_cases hR0 : totalSum (separateFeet g).2 = 0
    · have hSR : sideEntries "R" (separateFeet g).2 z = [] := by
        unfold sideEntries
        rw [if_pos hR0]
      rw [hSL, hSR] at hdist
      simp only [List.append_nil] at hdist
      rw [hdist]
      refine ⟨by simp [List.lookup, hL], by simp [List.lookup, hL],
        by simp [List.lookup, hL], by simp [List.lookup, hR0],
        by simp [List.lookup, hR0], by simp [List.lookup, hR0],
        by rw [if_neg hL, if_pos hR0]; rfl, ?_⟩
      intro kv hkv
      simp only [List.mem_cons, List.not_mem_nil, or_false] at hkv
      rcases hkv with h | h | h <;> subst h
      · exact hfactsL.2.1
      · exact hfactsL.2.2.1
      · exact hfactsL.2.2.2
    · have hR : totalSum (separateFeet g).2 ≠ 0 := hR0
      have hsuppR := combinedBbox_bounds_right _ _ _ _ hnnR hR hcb
      have hfactsR := side_pct_facts (separateFeet g).2 bmin bmax hnnR hhighR hsuppR hR z hzz
      have hSR : sideEntries "R" (separateFeet g).2 z =
          [("RH", pct (separateFeet g).2 z.hind),
           ("RM", pct (separateFeet g).2 z.mid),
           ("RF", pct (separateFeet g).2 z.fore)] := by
        unfold sideEntries
        rw [if_neg hR]
        rfl
      rw [hSL, hSR] at hdist
      rw [hdist]
      refine ⟨by simp [List.lookup, hL], by simp [List.lookup, hL],
        by simp [List.lookup, hL], by simp [List.lookup, hR],
        by simp [List.lookup, hR], by simp [List.lookup, hR],
        by rw [if_neg hL, if_neg hR]; rfl, ?_⟩
      intro kv hkv
      simp only [List.mem_append, List.mem_cons, List.not_mem_nil, or_false] at hkv
      rcases hkv with (h | h | h) | (h | h | h) <;> subst h
      · exact hfactsL.2.1
      · exact hfactsL.2.2.1
      · exact hfactsL.2.2.2
      · exact hfactsR.2.1
      · exact hfactsR.2.2.1
      · exact hfactsR.2.2.2

theorem c10_distribution_completeness_witness :
    ((List.lookup "LH" (distEntries colGrid)).isSome = true ↔
      totalSum (separateFeet colGrid).1 ≠ 0) ∧
      ((List.lookup "RH" (distEntries colGrid)).isSome = true ↔
        totalSum (separateFeet colGrid).2 ≠ 0) :=
  ⟨(c10_distribution_completeness colGrid (by decide)).1,
   (c10_distribution_completeness colGrid (by decide)).2.2.2.1⟩

/-! ## Ingestion layer: supporting lemmas -/

lemma seqOption_eq_none {α : Type} (l : List (Option α)) :
    seqOption l = none ↔ none ∈ l := by
  induction l with
  | nil => simp [seqOption]
  | cons x rest ih =>
    cases x with
    | none => simp [seqOption]
    | some a =>
      simp only [seqOption, Option.map_eq_none', List.mem_cons, ih]
      simp

lemma seqOption_some_mem {α : Type} {l : List (Option α)} {m : List α}
    (h : seqOption l = some m) : ∀ x ∈ m, some x ∈ l := by
  induction l generalizing m with
  | nil =>
    simp only [seqOption, Option.some.injEq] at h
    subst h
    simp
  | cons o rest ih =>
    cases o with
    | none => simp [seqOption] at h
    | some a =>
      simp only [seqOption, Option.map_eq_some'] at h
      obtain ⟨m', hm', rfl⟩ := h
      intro x hx
      rcases List.mem_cons.mp hx with rfl | hx'
      · exact List.mem_cons_self _ _
      · exact List.mem_cons_of_mem _ (ih hm' x hx')

lemma seqOption_length {α : Type} {l : List (Option α)} {m : List α}
    (h : seqOption l = some m) : m.length = l.length := by
  induction l generalizing m with
  | nil =>
    simp only [seqOption, Option.some.injEq] at h
    subst h
    rfl
  | cons o rest ih =>
    cases o with
    | none => simp [seqOption] at h
    | some a =>
      simp only [seqOption, Option.map_eq_some'] at h
      obtain ⟨m', hm', rfl⟩ := h
      simp [ih hm']

lemma mem_insertByKey (kv x : String × String) (l : List (String × String)) :
    x ∈ insertByKey kv l ↔ x = kv ∨ x ∈ l := by
  induction l with
  | nil => simp [insertByKey]
  | cons y ys ih =>
    unfold insertByKey
    split_ifs
    · simp [List.mem_cons]
    · simp only [List.mem_cons, ih]
      tauto

lemma mem_sortRows (x : String × String) (rows : List (String × String)) :
    x ∈ sortRows rows ↔ x ∈ rows := by
  induction rows with
  | nil => simp [sortRows]
  | cons a l ih =>
    show x ∈ insertByKey a (sortRows l) ↔ _
    rw [mem_insertByKey, ih]
    simp [List.mem_cons]

lemma insertByKey_length (kv : String × String) (l : List (String × String)) :
    (insertByKey kv l).length = l.length + 1 := by
  induction l with
  | nil => rfl
  | cons y ys ih =>
    unfold insertByKey
    split_ifs
    · rfl
    · simp [ih]

lemma sortRows_length (rows : List (String × String)) :
    (sortRows rows).length = rows.length := by
  induction rows with
  | nil => rfl
  | cons a l ih =>
    show (insertByKey a (sortRows l)).length = _
    rw [insertByKey_length, ih]
    rfl

lemma parseRow_none_of_bad {cs : String} {s : List Char}
    (hs : s ∈ splitCS cs.data) (hps : parseIntChars s = none) :
    parseRow cs = none := by
  unfold parseRow
  rw [seqOption_eq_none]
  rw [List.mem_map]
  exact ⟨s, hs, hps⟩

lemma processInputData_bad_cell (rows : List (String × String))
    (hbad : ∃ kv ∈ rows, ∃ s ∈ splitCS kv.2.data, parseIntChars s = none) :
    processInputData (some rows) = none ∨
      processInputData (some rows) = some [] := by
  cases rows with
  | nil => simp at hbad
  | cons a l =>
    unfold processInputData
    dsimp only
    split_ifs with h1 h2
    · exact Or.inl rfl
    · exact Or.inr rfl
    · have hseq : seqOption ((sortRows (a :: l)).map fun kv => parseRow kv.2) =
          none := by
        rw [seqOption_eq_none, List.mem_map]
        obtain ⟨kv, hkv, s, hs, hps⟩ := hbad
        exact ⟨kv, (mem_sortRows kv (a :: l)).mpr hkv,
          (parseRow_none_of_bad hs hps).symm ▸ rfl⟩
      rw [hseq]
      exact Or.inr rfl

/-- C8: malformed-input hard failure before the pipeline.  When the row
mapping is missing (`none`), empty, contains a non-numeric cell value, or
the ingestion otherwise yields an empty grid, `run_analysis` returns
`False` with an error message set and every analysis field still in its
initial empty/absent state; no exception propagates (the model is a total
function).  For well-formed non-empty input (every key has a numeric
`_`-index, every cell parses, rows have a common positive length) no
ingestion failure is signaled: the run returns `True` with no error
message. -/
theorem c8_malformed_input (input : Option (List (String × String))) :
    ((input = none ∨ input = some [] ∨
        (∃ kv ∈ input.getD [], ∃ s ∈ splitCS kv.2.data, parseIntChars s = none) ∨
        (∀ m, processInputData input = some m → gridSize m = 0)) →
      (runAnalysis input).success = false ∧
        (runAnalysis input).errorMessage.isSome = true ∧
        (runAnalysis input).state = initState) ∧
    (∀ (rows : List (String × String)) (L : ℕ),
      input = some rows → rows ≠ [] → 0 < L →
      (∀ kv ∈ rows, ((splitU kv.1.data)[1]?).isSome ∧ (keyIdx kv.1).isSome) →
      (∀ kv ∈ rows, parseRow kv.2 ≠ none ∧ ((parseRow kv.2).getD []).length = L) →
      (runAnalysis input).success = true ∧
        (runAnalysis input).errorMessage = none) := by
  constructor
  · intro hmal
    have hfail : processInputData input = none ∨
        ∃ m, processInputData input = some m ∧ gridSize m = 0 := by
      rcases hmal with rfl | rfl | hbad | hall
      · exact Or.inr ⟨[], rfl, rfl⟩
      · exact Or.inr ⟨[], rfl, rfl⟩
      · cases input with
        | none => simp at hbad
        | some rows =>
          simp only [Option.getD_some] at hbad
          rcases processInputData_bad_cell rows hbad with h | h
          · exact Or.inl h
          · exact Or.inr ⟨[], h, rfl⟩
      · cases h : processInputData input with
        | none => exact Or.inl rfl
        | some m => exact Or.inr ⟨m, rfl, hall m h⟩
    rcases hfail with h | ⟨m, hm, hsz⟩
    · unfold runAnalysis
      rw [h]
      exact ⟨rfl, rfl, rfl⟩
    · unfold runAnalysis
      rw [hm]
      dsimp only
      rw [if_pos hsz]
      exact ⟨rfl, rfl, rfl⟩
  · intro rows L hin hrows hL hkeys hcells
    subst hin
    cases rows with
    | nil => exact absurd rfl hrows
    | cons a l =>
    have h1 : ((a :: l).any fun kv => ((splitU kv.1.data)[1]?).isNone) = false := by
      rw [List.any_eq_false]
      intro kv hkv
      show ¬ ((splitU kv.1.data)[1]?.isNone = true)
      have h := (hkeys kv hkv).1
      cases hx : (splitU kv.1.data)[1]? with
      | none => rw [hx] at h; simp at h
      | some v => simp
    have h2 : ((a :: l).any fun kv => (keyIdx kv.1).isNone) = false := by
      rw [List.any_eq_false]
      intro kv hkv
      show ¬ ((keyIdx kv.1).isNone = true)
      have h := (hkeys kv hkv).2
      cases hx : keyIdx kv.1 with
      | none => rw [hx] at h; simp at h
      | some v => simp
    obtain ⟨m, hm⟩ : ∃ m,
        seqOption ((sortRows (a :: l)).map fun kv => parseRow kv.2) = some m := by
      cases hs : seqOption ((sortRows (a :: l)).map fun kv => parseRow kv.2) with
      | none =>
        rw [seqOption_eq_none, List.mem_map] at hs
        obtain ⟨kv, hkv, hnone⟩ := hs
        exact absurd hnone
          ((hcells kv ((mem_sortRows kv (a :: l)).mp hkv)).1)
      | some m => exact ⟨m, rfl⟩
    have hlenrow : ∀ x ∈ m, x.length = L := by
      intro x hx
      have := seqOption_some_mem hm x hx
      rw [List.mem_map] at this
      obtain ⟨kv, hkv, hpr⟩ := this
      have hc := (hcells kv ((mem_sortRows kv (a :: l)).mp hkv)).2
      rw [hpr] at hc
      simpa using hc
    have hmlen : m.length = l.length + 1 := by
      rw [seqOption_length hm, List.length_map, sortRows_length]
      rfl
    have hrect : rectangular m = true := by
      unfold rectangular
      rw [List.all_eq_true]
      intro row hrow
      cases m with
      | nil => simp at hmlen
      | cons m0 mrest =>
        have h0 : m0.length = L := hlenrow m0 (List.mem_cons_self _ _)
        have hr : row.length = L := hlenrow row hrow
        simp [List.headD, h0, hr]
    have hsz : gridSize m ≠ 0 := by
      cases m with
      | nil => simp at hmlen
      | cons m0 mrest =>
        have h0 : m0.length = L := hlenrow m0 (List.mem_cons_self _ _)
        unfold gridSize
        simp only [List.map_cons, List.sum_cons]
        omega
    have hproc : processInputData (some (a :: l)) = some m := by
      unfold processInputData
      dsimp only
      rw [h1]
      rw [if_neg (by simp)]
      rw [h2]
      rw [if_neg (by simp)]
      rw [hm]
      dsimp only
      rw [if_pos hrect]
    unfold runAnalysis
    rw [hproc]
    dsimp only
    rw [if_neg hsz]
    exact ⟨rfl, rfl⟩

theorem c8_malformed_input_witness :
    ((runAnalysis none).success = false ∧
      (runAnalysis none).errorMessage.isSome = true ∧
      (runAnalysis none).state = initState) ∧
    ((runAnalysis (some [("row_0", "1,  2"), ("row_1", "7, 8")])).success = true ∧
      (runAnalysis (some [("row_0", "1,  2"), ("row_1", "7, 8")])).errorMessage =
        none) :=
  ⟨(c8_malformed_input none).1 (Or.inl rfl),
   (c8_malformed_input (some [("row_0", "1,  2"), ("row_1", "7, 8")])).2
     [("row_0", "1,  2"), ("row_1", "7, 8")] 2 rfl (by decide) (by decide)
     (by decide) (by decide)⟩
